import Mathlib

/-!
Verification development for `pycam.py`, a threaded MJPEG streaming HTTP
server for a Raspberry Pi camera.  The Python source is shallowly embedded:
pure byte manipulations become functions on `List Nat` (byte values),
the shared server state becomes an explicit record, the multithreaded
frame buffer (a `threading.Condition` around `StreamingOutput.frame`)
becomes a small labelled transition system in which every `with lock:`
block of the source is one atomic step, and the per-connection streaming
loop becomes an explicit step function on a program counter.
-/

namespace PyCam

/-- Bytes of an ASCII string, modelling Python `str.encode("latin-1")` as
used by `BaseHTTPRequestHandler.send_header` / `end_headers`. -/
def strBytes (s : String) : List Nat := s.toList.map Char.toNat

/-- Decimal digits (as ASCII byte values) of a natural number, modelling
Python `str(n)` for a nonnegative `int` (used when `send_header` formats
`len(frame)` with `%s`). -/
def natDigits (n : Nat) : List Nat :=
  if h : n < 10 then [48 + n] else natDigits (n / 10) ++ [48 + n % 10]
termination_by n
decreasing_by
  simp only [not_lt] at h
  exact Nat.div_lt_self (by omega) (by omega)

/-- Read decimal ASCII digits back into a number (the value a receiver
would parse out of the `Content-Length` header). -/
def parseNat (ds : List Nat) : Nat :=
  ds.foldl (fun acc d => acc * 10 + (d - 48)) 0

/-! ### The rotation header (pycam.py lines 21–31)

`ROTATION = 0` in the source; when nonzero, the module builds an EXIF APP1
segment `b"\xff\xe1" + (len(exif)+2).to_bytes(2, "big") + exif` where the
EXIF payload itself comes from `piexif.dump` (external library, taken as a
parameter here). -/

/-- The configured rotation, `ROTATION = 0` (pycam.py line 21). -/
def rotationSetting : Nat := 0

/-- Model of the module-level `rotation_header` computation (pycam.py
lines 25–31): empty when the rotation is zero, otherwise the marker bytes
`ff e1`, a two-byte big-endian length `len(exif)+2`, then the EXIF bytes. -/
def rotationHeaderFn (rotation : Nat) (exifBytes : List Nat) : List Nat :=
  if rotation ≠ 0 then
    let exifLen := exifBytes.length + 2
    [0xff, 0xe1] ++ [exifLen / 256 % 256, exifLen % 256] ++ exifBytes
  else []

/-- The `rotation_header` value of the running program (`ROTATION = 0`,
so `piexif` is never consulted and the EXIF argument is irrelevant). -/
def rotation_header : List Nat := rotationHeaderFn rotationSetting []

/-- The frame transform applied by `StreamingOutput.write` (pycam.py line
212): `self.frame = buf[:2] + rotation_header + buf[2:]`, for an arbitrary
header value. -/
def writeTransform (hdr buf : List Nat) : List Nat :=
  buf.take 2 ++ hdr ++ buf.drop 2

/-! ### Shared server state (StreamingServer class attributes, lines 216–221)

Timestamps are naturals (seconds); `timedelta(minutes=m)` is `60 * m`. -/

/-- Model of `timedelta(minutes=m)`, in seconds. -/
def minutes (m : Nat) : Nat := 60 * m

/-- The mutable state shared by all request-handler threads through
`self.server`: `active_stream`, `last_stream_time`, `streaming_time`
(pycam.py lines 219–221). -/
structure ServerState where
  active_stream : Bool
  last_stream_time : Nat
  streaming_time : Nat
  deriving Repr, DecidableEq

/-- Hardware events emitted by the lifecycle code: calls to `start_cam()`
and `stop_cam()`. -/
inductive Ev
  | startCam
  | stopCam
  deriving Repr, DecidableEq

/-- Model of `StreamingHandler.update_streaming_time` (pycam.py lines 124–129):
`current_end = datetime.now() + timedelta(minutes=self.server.streaming_time)`;
`self.server.last_stream_time = current_end`. -/
def update_streaming_time (s : ServerState) (now : Nat) : ServerState :=
  { s with last_stream_time := now + minutes s.streaming_time }

/-- Model of `StreamingHandler.stop_stream` (pycam.py lines 119–122): if
`active_stream`, clear the flag and call `stop_cam()`. -/
def stop_stream (s : ServerState) : ServerState × List Ev :=
  if s.active_stream then ({ s with active_stream := false }, [Ev.stopCam])
  else (s, [])

/-- The entry of `StreamingHandler.stream` (pycam.py lines 142–143):
`self.server.active_stream = True` then `self.update_streaming_time()`. -/
def streamEntry (s : ServerState) (now : Nat) : ServerState :=
  update_streaming_time { s with active_stream := true } now

/-! ### One multipart part (pycam.py lines 150–155)

`send_header` buffers `"keyword: value\r\n"` into `_headers_buffer`;
`end_headers` flushes the buffer followed by a blank line.  The loop body
writes the boundary directly, buffers the two headers, flushes, writes the
frame, then a trailing CRLF. -/

/-- Model of `BaseHTTPRequestHandler.send_header`: append `keyword: value\r\n` to
the header buffer (the value already rendered to bytes, as `%s` does). -/
def send_header (buffer : List Nat) (keyword : String) (value : List Nat) : List Nat :=
  buffer ++ (strBytes (keyword ++ ": ") ++ value ++ strBytes "\r\n")

/-- Model of `BaseHTTPRequestHandler.end_headers`: the flushed bytes are the
buffered headers followed by a blank line. -/
def end_headers (buffer : List Nat) : List Nat := buffer ++ strBytes "\r\n"

/-- The exact bytes one iteration of the streaming loop sends for a frame
(pycam.py lines 150–155): `--FRAME\r\n`, then the flushed
`Content-Type` / `Content-Length` headers and blank line, then the frame,
then `\r\n`. -/
def streamPartBytes (frame : List Nat) : List Nat :=
  strBytes "--FRAME\r\n" ++
    end_headers
      (send_header (send_header [] "Content-Type" (strBytes "image/jpeg"))
        "Content-Length" (natDigits frame.length)) ++
    frame ++ strBytes "\r\n"

/-- Specification-side shape of a well-formed multipart part for `frame`:
boundary, `Content-Type` header, a `Content-Length` header whose decimal
digits denote exactly `frame.length`, a blank line, the frame bytes, and a
trailing CRLF, in that order. -/
def partWellFormed (out frame : List Nat) : Prop :=
  ∃ ds, (∀ d ∈ ds, 48 ≤ d ∧ d ≤ 57) ∧ parseNat ds = frame.length ∧
    out = strBytes "--FRAME\r\n" ++ strBytes "Content-Type: image/jpeg\r\n" ++
      strBytes "Content-Length: " ++ ds ++ strBytes "\r\n" ++ strBytes "\r\n" ++
      frame ++ strBytes "\r\n"

/-! ### `/cap` still capture (pycam.py lines 131–138 under the decorator) -/

/-- The single persisted artifact: the still file at the fixed overwrite
path `/home/pi/still.jpg`. -/
structure World where
  still : Option (List Nat)
  deriving Repr, DecidableEq

/-- Body of `create_still` (pycam.py lines 132–138): save the camera's
current image to the fixed path (overwriting), then open that file, read
it and write its contents to the response. -/
def create_still_body (w : World) (img : List Nat) : World × List Nat :=
  let w' : World := { w with still := some img }
  (w', w'.still.getD [])

/-- Result of running a decorated handler: final shared state, file
system, hardware events in order, and response body bytes. -/
structure StillResult where
  state : ServerState
  world : World
  events : List Ev
  body : List Nat
  deriving Repr, DecidableEq

/-- Model of `create_still` as wrapped by `active_stream_cam` (pycam.py lines
98–115 applied to lines 131–138): start the camera if `active_stream` is
false, run the body, then stop the camera and clear the flag if
`active_stream` is (still) false or the deadline has passed. -/
def active_stream_cam_still (s : ServerState) (w : World) (img : List Nat)
    (now : Nat) : StillResult :=
  let evStart : List Ev := if s.active_stream then [] else [Ev.startCam]
  let r := create_still_body w img
  if !s.active_stream || decide (s.last_stream_time < now) then
    ⟨{ s with active_stream := false }, r.1, evStart ++ [Ev.stopCam], r.2⟩
  else
    ⟨s, r.1, evStart, r.2⟩

/-! ### The GET router (pycam.py lines 163–202) -/

/-- Which handler `do_GET` dispatches to for a given path. -/
inductive RouteAction
  | page
  | cap
  | update
  | stopStream
  | stream
  | notFound
  deriving Repr, DecidableEq

/-- The dispatch of `do_GET` (pycam.py lines 163–202). -/
def routePath (path : String) : RouteAction :=
  if path = "/" then .page
  else if path = "/index" then .page
  else if path = "/cap" then .cap
  else if path = "/update" then .update
  else if path = "/stop" then .stopStream
  else if path = "/stream" then .stream
  else .notFound

/-- The `/update` branch of `do_GET` (pycam.py lines 182–185): send a 200
response with empty body and call `update_streaming_time`; no hardware
call is made. -/
def do_GET_update (s : ServerState) (now : Nat) :
    ServerState × List Ev × Nat × List Nat :=
  (update_streaming_time s now, [], 200, [])

/-! ### Interleaving of two `/stream` handler threads (pycam.py lines 98–115, 140–144)

`ThreadingMixIn` runs each request on its own thread; nothing in the
source guards the decorator's check-then-start.  Each line of the
decorator prologue is one atomic step; the scheduler is a list of thread
ids. -/

/-- Program counter of one `/stream` thread inside the decorator prologue:
the `if not self.server.active_stream` test (line 102), the `start_cam()`
call (line 103), the `self.server.active_stream = True` assignment
(line 142), then the rest of the body. -/
inductive TPC
  | checkActive
  | callStart
  | setActive
  | body
  deriving Repr, DecidableEq

/-- A recorded `start_cam()` invocation: which thread made it and whether
`active_stream` was already true at that moment (i.e. whether a session
was already active). -/
structure StartEv where
  thread : Bool
  activeAlready : Bool
  deriving Repr, DecidableEq

/-- Shared flag plus the two threads' program counters and the log of
`start_cam()` invocations. -/
structure RaceState where
  active : Bool
  pcA : TPC
  pcB : TPC
  starts : List StartEv
  deriving Repr, DecidableEq

/-- Set thread `t`'s program counter. -/
def setPc (s : RaceState) (t : Bool) (pc : TPC) : RaceState :=
  if t then { s with pcB := pc } else { s with pcA := pc }

/-- One atomic step of thread `t`. -/
def raceStep (s : RaceState) (t : Bool) : RaceState :=
  match (if t then s.pcB else s.pcA) with
  | .checkActive => setPc s t (if s.active then .setActive else .callStart)
  | .callStart =>
      { setPc s t .setActive with starts := s.starts ++ [⟨t, s.active⟩] }
  | .setActive => { setPc s t .body with active := true }
  | .body => s

/-- Run a schedule (list of thread ids). -/
def raceRun (s : RaceState) : List Bool → RaceState
  | [] => s
  | t :: ts => raceRun (raceStep s t) ts

/-- Both threads at the decorator's test, device off, no starts yet. -/
def raceInit : RaceState := ⟨false, .checkActive, .checkActive, []⟩

/-! ### The frame buffer (`StreamingOutput`, pycam.py lines 205–213, consumers lines 147–149)

A labelled transition system: `publish b` is the whole `with self.condition:`
block of `write` as one atomic step (swap the frame, wake every waiter);
`beginWait i` is consumer `i` entering `condition.wait()`; `wakeRead i` is
a woken consumer reacquiring the lock and reading `output.frame`.  A
consumer that is merely waiting has no read transition: `Condition.wait`
returns only after a `notify_all`. -/

/-- Where one consumer is inside `wait_for_next`. -/
inductive WaitSt
  | idle
  | waiting (startGen : Nat)
  | woken (wakeGen : Nat)
  deriving Repr, DecidableEq

/-- One consumer: its wait state, the last frame it read, and counters of
completed deliveries and of `wait` calls begun. -/
structure Consumer where
  st : WaitSt
  lastFrame : Option (List Nat)
  deliveries : Nat
  waitCalls : Nat
  deriving Repr, DecidableEq

/-- The shared buffer (`frame`, a publish generation counter) plus two
consumers and the log of published raw inputs. -/
structure BufSys where
  frame : Option (List Nat)
  gen : Nat
  c0 : Consumer
  c1 : Consumer
  published : List (List Nat)
  deriving Repr, DecidableEq

/-- Actions of the buffer system. -/
inductive BufAct
  | publish (b : List Nat)
  | beginWait (i : Bool)
  | wakeRead (i : Bool)
  deriving Repr, DecidableEq

/-- Model of `notify_all` as seen by one consumer: a waiting consumer becomes
woken at generation `g`. -/
def wakeC (g : Nat) (c : Consumer) : Consumer :=
  match c.st with
  | .waiting _ => { c with st := .woken g }
  | _ => c

/-- An idle consumer enters `condition.wait()` (recording the generation
at which its wait began). -/
def beginWaitC (gen : Nat) (c : Consumer) : Consumer :=
  match c.st with
  | .idle => { c with st := .waiting gen, waitCalls := c.waitCalls + 1 }
  | _ => c

/-- A woken consumer reacquires the lock and reads `output.frame` (the
frame current at read time), completing one delivery. -/
def wakeReadC (fr : Option (List Nat)) (c : Consumer) : Consumer :=
  match c.st with
  | .woken _ =>
      { c with st := .idle, lastFrame := fr, deliveries := c.deliveries + 1 }
  | _ => c

/-- Apply `f` to consumer `i`. -/
def updC (s : BufSys) (i : Bool) (f : Consumer → Consumer) : BufSys :=
  if i then { s with c1 := f s.c1 } else { s with c0 := f s.c0 }

/-- One atomic step.  `publish b` models `StreamingOutput.write(buf)`
(lines 210–213): under the lock, `frame := buf[:2]+hdr+buf[2:]` and every
current waiter is woken by the same step.  `beginWait` and `wakeRead`
model the consumer side `with output.condition: output.condition.wait();
frame = output.frame` (lines 147–149). -/
def bufStep (hdr : List Nat) (s : BufSys) : BufAct → BufSys
  | .publish b =>
      { frame := some (writeTransform hdr b)
        gen := s.gen + 1
        c0 := wakeC (s.gen + 1) s.c0
        c1 := wakeC (s.gen + 1) s.c1
        published := s.published ++ [b] }
  | .beginWait i => updC s i (beginWaitC s.gen)
  | .wakeRead i => updC s i (wakeReadC s.frame)

/-- Run a list of actions. -/
def bufRun (hdr : List Nat) (s : BufSys) : List BufAct → BufSys
  | [] => s
  | a :: acts => bufRun hdr (bufStep hdr s a) acts

/-- Fresh consumer. -/
def cInit : Consumer := ⟨.idle, none, 0, 0⟩

/-- Initial buffer: no frame ever published (`self.frame = None`). -/
def bufInit : BufSys := ⟨none, 0, cInit, cInit, []⟩

/-- The publish actions of a trace, in order. -/
def publishesOf : List BufAct → List (List Nat)
  | [] => []
  | .publish b :: acts => b :: publishesOf acts
  | .beginWait _ :: acts => publishesOf acts
  | .wakeRead _ :: acts => publishesOf acts

/-- A byte string is a frame genuinely produced by `write` from some
published input. -/
def framePublished (hdr : List Nat) (published : List (List Nat)) (f : List Nat) : Prop :=
  ∃ b ∈ published, f = writeTransform hdr b

/-! ### The streaming loop of one session (pycam.py lines 146–157)

`while datetime.now() < self.server.last_stream_time:` wait for a frame,
write one part, then `if not self.server.active_stream: break`.  One step
per source line group; the `Nat` component counts `wait()` returns (one
per loop body entered). -/

/-- Program counter of the loop. -/
inductive SessPC
  | loopTop
  | inWait
  | afterWrite
  | exited
  deriving Repr, DecidableEq

/-- One step of the loop given the shared flag, the deadline and the
current clock: the `while` test at the top, the `wait()` that returns when
a frame is published (counted), the part write, and the `break` test. -/
def sessStep (active : Bool) (deadline now : Nat) : SessPC → SessPC × Nat
  | .loopTop => if now < deadline then (.inWait, 0) else (.exited, 0)
  | .inWait => (.afterWrite, 1)
  | .afterWrite => if active then (.loopTop, 0) else (.exited, 0)
  | .exited => (.exited, 0)

/-- Run the loop over a list of clock readings (one per step), summing the
`wait()` returns. -/
def sessRun (active : Bool) (deadline : Nat) (times : List Nat) (pc : SessPC) :
    SessPC × Nat :=
  match times with
  | [] => (pc, 0)
  | now :: rest =>
      let r := sessStep active deadline now pc
      let r' := sessRun active deadline rest r.1
      (r'.1, r.2 + r'.2)

/-! ### Write failures in the loop (pycam.py lines 145–161)

The whole loop sits in `try: ... except Exception as e:
logging.warning("Removed streaming client %s: %s", self.client_address, str(e))`. -/

/-- Outcome of one session: the parts actually written, the log records
emitted (level, message), and whether an exception escaped to the caller
of `do_GET`. -/
structure StreamOutcome where
  written : List (List Nat)
  logs : List (String × String)
  raised : Bool
  deriving Repr, DecidableEq

/-- The writes of the loop body, one fallible write per part: `writeOk k`
tells whether the `k`-th write call succeeds; the first failure raises
(modelled as `some errMsg`) and abandons the rest. -/
def streamWrites (writeOk : Nat → Bool) (errMsg : String) (k : Nat) :
    List (List Nat) → List (List Nat) × Option String
  | [] => ([], none)
  | f :: fs =>
      if writeOk k then
        let r := streamWrites writeOk errMsg (k + 1) fs
        (streamPartBytes f :: r.1, r.2)
      else ([], some errMsg)

/-- One session: run the loop's writes under the `try`, and on an
exception log the warning with the client address and swallow it
(lines 158–161). -/
def streamSession (addr : String) (writeOk : Nat → Bool) (errMsg : String)
    (frames : List (List Nat)) : StreamOutcome :=
  let r := streamWrites writeOk errMsg 0 frames
  match r.2 with
  | none => ⟨r.1, [], false⟩
  | some e =>
      ⟨r.1, [("warning", "Removed streaming client " ++ addr ++ ": " ++ e)], false⟩

/-- Two independent sessions over the same frame sequence, each with its
own connection and its own failure pattern. -/
def bothSessions (addrA addrB : String) (okA okB : Nat → Bool) (errMsg : String)
    (frames : List (List Nat)) : StreamOutcome × StreamOutcome :=
  (streamSession addrA okA errMsg frames, streamSession addrB okB errMsg frames)

/-! ### Invariants of the buffer system -/

/-- Per-consumer invariant over the published log: every frame it ever
read is the image of a published input; delivery count never exceeds wait
count; a consumer inside a wait (waiting or woken) has one delivery still
outstanding; and before the first publish nothing has been delivered. -/
def consInv (hdr : List Nat) (published : List (List Nat)) (c : Consumer) : Prop :=
  (∀ f, c.lastFrame = some f → framePublished hdr published f) ∧
  c.deliveries ≤ c.waitCalls ∧
  (∀ g, (c.st = .waiting g ∨ c.st = .woken g) → c.deliveries < c.waitCalls) ∧
  (published = [] → c.lastFrame = none ∧ c.deliveries = 0 ∧ ∀ g, c.st ≠ .woken g)

/-- System invariant: the current frame, and every frame a consumer read,
is a complete `writeTransform` image of a published input. -/
def sysInv (hdr : List Nat) (s : BufSys) : Prop :=
  (∀ f, s.frame = some f → framePublished hdr s.published f) ∧
  consInv hdr s.published s.c0 ∧ consInv hdr s.published s.c1

/-! ## Theorems -/

theorem parseNat_append (xs ys : List Nat) :
    parseNat (xs ++ ys) = ys.foldl (fun acc d => acc * 10 + (d - 48)) (parseNat xs) := by
  simp [parseNat, List.foldl_append]

theorem parseNat_natDigits (n : Nat) : parseNat (natDigits n) = n := by
  induction n using Nat.strong_induction_on with
  | _ n ih =>
    rw [natDigits]
    by_cases h : n < 10
    · simp [h, parseNat]
    · have hd : n / 10 < n := Nat.div_lt_self (by omega) (by omega)
      simp only [h, if_neg, dite_false, dif_neg]
      rw [parseNat_append, ih (n / 10) hd]
      simp [List.foldl]
      omega

/-- Every byte produced by `natDigits` is an ASCII digit. -/
theorem natDigits_are_digits (n : Nat) :
    ∀ d ∈ natDigits n, 48 ≤ d ∧ d ≤ 57 := by
  induction n using Nat.strong_induction_on with
  | _ n ih =>
    rw [natDigits]
    by_cases h : n < 10
    · intro d hd
      simp [h] at hd
      omega
    · have hd : n / 10 < n := Nat.div_lt_self (by omega) (by omega)
      simp only [h, dif_neg]
      intro d hdmem
      rcases List.mem_append.1 hdmem with hl | hr
      · exact ih (n / 10) hd d hl
      · simp at hr
        have : n % 10 < 10 := Nat.mod_lt _ (by omega)
        omega

theorem framePublished_mono (hdr : List Nat) (pub : List (List Nat)) (b f : List Nat)
    (h : framePublished hdr pub f) : framePublished hdr (pub ++ [b]) f := by
  obtain ⟨b', hb', hf⟩ := h
  exact ⟨b', List.mem_append_left _ hb', hf⟩

theorem consInv_publish (hdr : List Nat) (pub : List (List Nat)) (b : List Nat)
    (g : Nat) (c : Consumer) (h : consInv hdr pub c) :
    consInv hdr (pub ++ [b]) (wakeC g c) := by
  obtain ⟨cst, clf, cd, cw⟩ := c
  obtain ⟨hlf, hdw, hout, _⟩ := h
  simp only [consInv] at *
  cases cst with
  | idle =>
      refine ⟨fun f hf => framePublished_mono _ _ _ _ (hlf f hf), hdw, ?_, by simp⟩
      intro g' hg'
      simp [wakeC] at hg'
  | waiting g0 =>
      refine ⟨fun f hf => framePublished_mono _ _ _ _ (hlf f hf), hdw, ?_, by simp⟩
      intro g' _
      simpa [wakeC] using hout g0 (Or.inl rfl)
  | woken g0 =>
      refine ⟨fun f hf => framePublished_mono _ _ _ _ (hlf f hf), hdw, ?_, by simp⟩
      intro g' _
      simpa [wakeC] using hout g0 (Or.inr rfl)

theorem consInv_beginWait (hdr : List Nat) (pub : List (List Nat)) (gen : Nat)
    (c : Consumer) (h : consInv hdr pub c) : consInv hdr pub (beginWaitC gen c) := by
  obtain ⟨cst, clf, cd, cw⟩ := c
  obtain ⟨hlf, hdw, hout, hemp⟩ := h
  simp only [consInv] at *
  cases cst with
  | idle =>
      simp only [beginWaitC] at *
      refine ⟨hlf, by omega, ?_, ?_⟩
      · intro g' _
        omega
      · intro hp
        obtain ⟨h1, h2, _⟩ := hemp hp
        simp_all
  | waiting g0 => exact ⟨hlf, hdw, hout, hemp⟩
  | woken g0 => exact ⟨hlf, hdw, hout, hemp⟩

theorem consInv_wakeRead (hdr : List Nat) (pub : List (List Nat))
    (fr : Option (List Nat)) (c : Consumer)
    (hfr : ∀ f, fr = some f → framePublished hdr pub f)
    (h : consInv hdr pub c) : consInv hdr pub (wakeReadC fr c) := by
  obtain ⟨cst, clf, cd, cw⟩ := c
  obtain ⟨hlf, hdw, hout, hemp⟩ := h
  simp only [consInv] at *
  cases cst with
  | idle => exact ⟨hlf, hdw, hout, hemp⟩
  | waiting g0 => exact ⟨hlf, hdw, hout, hemp⟩
  | woken g0 =>
      have hlt : cd < cw := by simpa using hout g0 (Or.inr rfl)
      refine ⟨?_, ?_, ?_, ?_⟩
      · intro f hf
        simp [wakeReadC] at hf
        exact hfr f hf
      · simp [wakeReadC] at hlt ⊢
        omega
      · intro g' hg'
        simp [wakeReadC] at hg'
      · intro hp
        have := (hemp hp).2.2 g0
        simp_all


theorem updC_published (s : BufSys) (i : Bool) (f : Consumer → Consumer) :
    (updC s i f).published = s.published := by
  cases i <;> simp [updC]

theorem updC_frame (s : BufSys) (i : Bool) (f : Consumer → Consumer) :
    (updC s i f).frame = s.frame := by
  cases i <;> simp [updC]

theorem sysInv_step (hdr : List Nat) (s : BufSys) (a : BufAct)
    (h : sysInv hdr s) : sysInv hdr (bufStep hdr s a) := by
  obtain ⟨hf, h0, h1⟩ := h
  cases a with
  | publish b =>
      refine ⟨?_, consInv_publish _ _ _ _ _ h0, consInv_publish _ _ _ _ _ h1⟩
      intro f hfe
      simp [bufStep] at hfe
      exact ⟨b, List.mem_append_right _ (by simp), hfe.symm⟩
  | beginWait i =>
      cases i
      · exact ⟨hf, consInv_beginWait _ _ _ _ h0, h1⟩
      · exact ⟨hf, h0, consInv_beginWait _ _ _ _ h1⟩
  | wakeRead i =>
      cases i
      · exact ⟨hf, consInv_wakeRead _ _ _ _ hf h0, h1⟩
      · exact ⟨hf, h0, consInv_wakeRead _ _ _ _ hf h1⟩

theorem sysInv_init (hdr : List Nat) : sysInv hdr bufInit := by
  refine ⟨by simp [bufInit], ?_, ?_⟩ <;>
    exact ⟨by simp [bufInit, cInit], by simp [bufInit, cInit],
      fun g hg => by simp [bufInit, cInit] at hg, fun _ => by simp [bufInit, cInit]⟩

theorem sysInv_run (hdr : List Nat) (s : BufSys) (acts : List BufAct)
    (h : sysInv hdr s) : sysInv hdr (bufRun hdr s acts) := by
  induction acts generalizing s with
  | nil => exact h
  | cons a acts ih => exact ih _ (sysInv_step hdr s a h)

theorem bufRun_published (hdr : List Nat) (s : BufSys) (acts : List BufAct) :
    (bufRun hdr s acts).published = s.published ++ publishesOf acts := by
  induction acts generalizing s with
  | nil => simp [bufRun, publishesOf]
  | cons a acts ih =>
      cases a with
      | publish b => simp [bufRun, bufStep, publishesOf, ih]
      | beginWait i => simp [bufRun, bufStep, publishesOf, ih, updC_published]
      | wakeRead i => simp [bufRun, bufStep, publishesOf, ih, updC_published]

theorem strBytes_append (a b : String) : strBytes (a ++ b) = strBytes a ++ strBytes b := by
  simp [strBytes, String.toList, String.data_append]

theorem strBytes_append_assoc (a b : String) (l : List Nat) :
    strBytes a ++ (strBytes b ++ l) = strBytes (a ++ b) ++ l := by
  simp [strBytes_append]

/-! ## Claim theorems -/

/-- C1: the claim says two simultaneous `/stream` handlers can never both
observe "not active" and both invoke the hardware start.  The code has no
lock around the decorator's check-then-start, and this interleaving of two
handler threads (A tests the flag, B tests the flag, A starts the camera,
A marks the stream active, B starts the camera) makes `start_cam()` run
twice, the second time while a session is already active. -/
theorem claim_C1_duplicate_start_trace :
    (raceRun raceInit [false, true, false, false, true]).starts =
      [⟨false, false⟩, ⟨true, true⟩] ∧
    (raceRun raceInit [false, true, false, false, true]).starts.length = 2 ∧
    (raceRun raceInit [false, true, false, false, true]).active = true := by
  decide

/-- C2: every iteration of the streaming loop writes exactly the boundary
`--FRAME\r\n`, a `Content-Type: image/jpeg` header, a `Content-Length`
header whose decimal value equals the byte length of the frame, a blank
line, the frame bytes, then `\r\n`, in that order, for every frame. -/
theorem claim_C2_part_bytes (frame : List Nat) :
    partWellFormed (streamPartBytes frame) frame := by
  refine ⟨natDigits frame.length, natDigits_are_digits _, parseNat_natDigits _, ?_⟩
  simp only [streamPartBytes, send_header, end_headers, List.nil_append,
    List.append_assoc, ← strBytes_append, strBytes_append_assoc]
  simp [strBytes_append_assoc]

/-- C3: `StreamingOutput.write` stores, as the new current frame, the
input with the fixed header inserted immediately after the first 2 bytes;
the very same atomic step (the `with self.condition:` block) both installs
the frame and wakes every consumer that was waiting; and along any trace,
any current frame is the complete image of some published input, so no
consumer can observe a partially written frame. -/
theorem claim_C3_publish_atomic (hdr b : List Nat) (s : BufSys) (acts : List BufAct) :
    (bufStep hdr s (.publish b)).frame = some (b.take 2 ++ hdr ++ b.drop 2) ∧
    (∀ g, s.c0.st = .waiting g →
      (bufStep hdr s (.publish b)).c0.st = .woken (s.gen + 1)) ∧
    (∀ g, s.c1.st = .waiting g →
      (bufStep hdr s (.publish b)).c1.st = .woken (s.gen + 1)) ∧
    (∀ f, (bufRun hdr bufInit acts).frame = some f →
      framePublished hdr (bufRun hdr bufInit acts).published f) := by
  refine ⟨by simp [bufStep, writeTransform], ?_, ?_, ?_⟩
  · intro g hg
    simp [bufStep, wakeC, hg]
  · intro g hg
    simp [bufStep, wakeC, hg]
  · intro f hf
    exact (sysInv_run hdr bufInit acts (sysInv_init hdr)).1 f hf

/-- Witness for C3 at concrete inputs: publishing `[1,2,3,4]` with header
`[9]` stores `[1,2,9,3,4]` and wakes a waiting consumer in the same step;
and after a concrete trace the current frame is published-complete. -/
theorem claim_C3_publish_atomic_witness :
    (bufStep [9] ⟨none, 0, ⟨.waiting 0, none, 0, 1⟩, cInit, []⟩
        (.publish [1, 2, 3, 4])).frame = some [1, 2, 9, 3, 4] ∧
    (bufStep [9] ⟨none, 0, ⟨.waiting 0, none, 0, 1⟩, cInit, []⟩
        (.publish [1, 2, 3, 4])).c0.st = .woken 1 ∧
    framePublished [9] (bufRun [9] bufInit [.publish [5, 6, 7]]).published [5, 6, 9, 7] := by
  have h := claim_C3_publish_atomic [9] [1, 2, 3, 4]
      ⟨none, 0, ⟨.waiting 0, none, 0, 1⟩, cInit, []⟩ [.publish [5, 6, 7]]
  exact ⟨h.1, h.2.1 0 rfl, h.2.2.2 [5, 6, 9, 7] (by decide)⟩

/-- C4: broadcast (not queue) semantics of the frame wait.  If a trace
contains exactly one publish, any frames the two consumers received are
both that first published frame; each consumer's deliveries never exceed
its `wait` calls (a publish while a consumer is not waiting produces no
extra delivery to it); with no publish at all, a consumer that began
waiting receives nothing (it blocks); and in the concrete trace where both
consumers wait before the first-ever publish, that publish wakes both and
each returns it — no deadlock. -/
theorem claim_C4_broadcast (hdr b : List Nat) (acts : List BufAct) :
    (publishesOf acts = [b] →
      ∀ f0 f1, (bufRun hdr bufInit acts).c0.lastFrame = some f0 →
        (bufRun hdr bufInit acts).c1.lastFrame = some f1 →
        f0 = writeTransform hdr b ∧ f1 = writeTransform hdr b) ∧
    ((bufRun hdr bufInit acts).c0.deliveries ≤ (bufRun hdr bufInit acts).c0.waitCalls ∧
      (bufRun hdr bufInit acts).c1.deliveries ≤ (bufRun hdr bufInit acts).c1.waitCalls) ∧
    (publishesOf acts = [] →
      (bufRun hdr bufInit acts).c0.lastFrame = none ∧
      (bufRun hdr bufInit acts).c0.deliveries = 0 ∧
      (bufRun hdr bufInit acts).c1.lastFrame = none ∧
      (bufRun hdr bufInit acts).c1.deliveries = 0) ∧
    (bufRun hdr bufInit
        [.beginWait false, .beginWait true, .publish b, .wakeRead false,
          .wakeRead true]).c0.lastFrame = some (writeTransform hdr b) ∧
    (bufRun hdr bufInit
        [.beginWait false, .beginWait true, .publish b, .wakeRead false,
          .wakeRead true]).c1.lastFrame = some (writeTransform hdr b) := by
  have hinv := sysInv_run hdr bufInit acts (sysInv_init hdr)
  have hpub := bufRun_published hdr bufInit acts
  have hnil : bufInit.published = [] := rfl
  rw [hnil, List.nil_append] at hpub
  obtain ⟨hf, h0, h1⟩ := hinv
  refine ⟨?_, ⟨h0.2.1, h1.2.1⟩, ?_, rfl, rfl⟩
  · intro hone f0 f1 hf0 hf1
    have hb0 := h0.1 f0 hf0
    have hb1 := h1.1 f1 hf1
    rw [hpub, hone] at hb0 hb1
    obtain ⟨b', hb', he⟩ := hb0
    obtain ⟨b'', hb'', he'⟩ := hb1
    simp at hb' hb''
    subst hb' hb''
    exact ⟨he, he'⟩
  · intro hnone
    have e0 := h0.2.2.2
    have e1 := h1.2.2.2
    rw [hpub, hnone] at e0 e1
    obtain ⟨a0, a1, _⟩ := e0 rfl
    obtain ⟨b0, b1, _⟩ := e1 rfl
    exact ⟨a0, a1, b0, b1⟩

/-- Witness for C4 at a concrete trace: both consumers wait before any
publish, one publish of `[1,2,3]` occurs, both read that same frame; and
in a publish-free trace a waiting consumer has received nothing. -/
theorem claim_C4_broadcast_witness :
    (([1, 2, 3] : List Nat) = writeTransform [] [1, 2, 3] ∧
      ([1, 2, 3] : List Nat) = writeTransform [] [1, 2, 3]) ∧
    (bufRun [] bufInit [.beginWait false]).c0.lastFrame = none :=
  ⟨(claim_C4_broadcast [] [1, 2, 3]
      [.beginWait false, .beginWait true, .publish [1, 2, 3],
        .wakeRead false, .wakeRead true]).1 (by decide) [1, 2, 3] [1, 2, 3]
      (by decide) (by decide),
   ((claim_C4_broadcast [] [] [.beginWait false]).2.2.1 (by decide)).1⟩

/-- C5: handling `/stop` while a stream is active clears `active_stream`
and issues the hardware stop; and with the flag false, a session at any
point of its loop exits within at most one more `wait()` return (it writes
at most one more part, sees the cleared flag, and breaks). -/
theorem claim_C5_stop_terminates (s : ServerState) (deadline t0 t1 t2 : Nat)
    (h : s.active_stream = true) :
    (stop_stream s).1.active_stream = false ∧
    (stop_stream s).2 = [Ev.stopCam] ∧
    (∀ pc, (sessRun false deadline [t0, t1, t2] pc).1 = .exited ∧
      (sessRun false deadline [t0, t1, t2] pc).2 ≤ 1) := by
  refine ⟨by simp [stop_stream, h], by simp [stop_stream, h], ?_⟩
  intro pc
  cases pc with
  | loopTop => by_cases h0 : t0 < deadline <;> simp [sessRun, sessStep, h0]
  | inWait => simp [sessRun, sessStep]
  | afterWrite => simp [sessRun, sessStep]
  | exited => simp [sessRun, sessStep]

/-- Witness for C5 on a concrete state and clock readings. -/
theorem claim_C5_stop_terminates_witness :
    (stop_stream ⟨true, 0, 1⟩).1.active_stream = false ∧
    (stop_stream ⟨true, 0, 1⟩).2 = [Ev.stopCam] ∧
    (sessRun false 10 [0, 1, 2] .loopTop).1 = .exited ∧
    (sessRun false 10 [0, 1, 2] .loopTop).2 ≤ 1 := by
  have h := claim_C5_stop_terminates ⟨true, 0, 1⟩ 10 0 1 2 rfl
  exact ⟨h.1, h.2.1, (h.2.2 .loopTop).1, (h.2.2 .loopTop).2⟩

/-- C6: `update_streaming_time` always sets the shared deadline to the
clock value at the call plus the configured streaming duration, regardless
of the deadline's previous value (in particular, regardless of when the
stream originally started); the same holds for the call at stream entry. -/
theorem claim_C6_extend_from_call_time (s : ServerState) (now t : Nat) :
    (update_streaming_time s now).last_stream_time = now + minutes s.streaming_time ∧
    update_streaming_time { s with last_stream_time := t } now =
      update_streaming_time s now ∧
    (streamEntry s now).last_stream_time = now + minutes s.streaming_time :=
  ⟨rfl, rfl, rfl⟩

/-- C7: `/update` routes to a handler whose only state change is the
deadline bookkeeping: it emits no hardware event (in particular no start),
leaves `active_stream` untouched, answers 200 with an empty body; and the
deadline it builds is irrelevant to a later stream start, which overwrites
the deadline from its own call time. -/
theorem claim_C7_update_no_start (s : ServerState) (now t : Nat) :
    routePath "/update" = RouteAction.update ∧
    (do_GET_update s now).2.1 = ([] : List Ev) ∧
    (do_GET_update s now).1.active_stream = s.active_stream ∧
    (do_GET_update s now).1.streaming_time = s.streaming_time ∧
    (do_GET_update s now).1 = { s with last_stream_time := now + minutes s.streaming_time } ∧
    (do_GET_update s now).2.2.1 = 200 ∧
    (do_GET_update s now).2.2.2 = ([] : List Nat) ∧
    streamEntry { s with last_stream_time := t } now = streamEntry s now :=
  ⟨by decide, rfl, rfl, rfl, rfl, rfl, rfl, rfl⟩

/-- C8: `/cap` on an inactive device starts the camera, overwrites the
still file with the captured image, answers with a byte-for-byte copy of
that file, and stops the camera again (flag left false) when its own
operation completes; on an already-active device it never issues a start. -/
theorem claim_C8_cap_lifecycle (s : ServerState) (w : World) (img : List Nat) (now : Nat) :
    (s.active_stream = false →
      (active_stream_cam_still s w img now).events = [Ev.startCam, Ev.stopCam] ∧
      (active_stream_cam_still s w img now).state.active_stream = false) ∧
    (s.active_stream = true →
      Ev.startCam ∉ (active_stream_cam_still s w img now).events) ∧
    (active_stream_cam_still s w img now).world.still = some img ∧
    (active_stream_cam_still s w img now).body = img := by
  refine ⟨?_, ?_, ?_, ?_⟩
  · intro h
    simp [active_stream_cam_still, create_still_body, h]
  · intro h
    by_cases hd : s.last_stream_time < now <;>
      simp [active_stream_cam_still, create_still_body, h, hd]
  · by_cases h : s.active_stream <;> by_cases hd : s.last_stream_time < now <;>
      simp [active_stream_cam_still, create_still_body, h, hd]
  · by_cases h : s.active_stream <;> by_cases hd : s.last_stream_time < now <;>
      simp [active_stream_cam_still, create_still_body, h, hd]

/-- Witness for C8: a `/cap` on an inactive device at a concrete state. -/
theorem claim_C8_cap_lifecycle_witness :
    (active_stream_cam_still ⟨false, 0, 1⟩ ⟨none⟩ [7, 8] 5).events =
      [Ev.startCam, Ev.stopCam] ∧
    (active_stream_cam_still ⟨false, 0, 1⟩ ⟨none⟩ [7, 8] 5).state.active_stream = false ∧
    (active_stream_cam_still ⟨false, 0, 1⟩ ⟨none⟩ [7, 8] 5).body = [7, 8] := by
  have h := claim_C8_cap_lifecycle ⟨false, 0, 1⟩ ⟨none⟩ [7, 8] 5
  exact ⟨(h.1 rfl).1, (h.1 rfl).2, h.2.2.2⟩

/-- C9: a write failure inside the streaming loop is caught by the
session's own `except` handler: nothing is raised to the caller of
`do_GET`, a warning naming the client's address is logged, and another
session's outcome is a function of its own connection only, unaffected by
this session's failure. -/
theorem claim_C9_write_failure_contained (addr addrB : String)
    (okA okA' okB : Nat → Bool) (errMsg e : String) (frames : List (List Nat))
    (h : (streamWrites okA errMsg 0 frames).2 = some e) :
    (streamSession addr okA errMsg frames).raised = false ∧
    (streamSession addr okA errMsg frames).logs =
      [("warning", "Removed streaming client " ++ addr ++ ": " ++ e)] ∧
    (bothSessions addr addrB okA okB errMsg frames).2 =
      (bothSessions addr addrB okA' okB errMsg frames).2 := by
  refine ⟨?_, ?_, rfl⟩
  · simp [streamSession, h]
  · simp [streamSession, h]

/-- Witness for C9: a session whose very first write fails. -/
theorem claim_C9_write_failure_contained_witness :
    (streamSession "client" (fun _ => false) "Broken pipe" [[1]]).raised = false ∧
    (streamSession "client" (fun _ => false) "Broken pipe" [[1]]).logs =
      [("warning", "Removed streaming client " ++ "client" ++ ": " ++ "Broken pipe")] := by
  have h := claim_C9_write_failure_contained "client" "other" (fun _ => false)
      (fun _ => true) (fun _ => true) "Broken pipe" "Broken pipe" [[1]] rfl
  exact ⟨h.1, h.2.1⟩

/-- C10: with the configured rotation zero, the orientation header is the
empty byte string, `write` stores any input of length at least 2 (indeed,
any input) unchanged, and in general the stored frame's length is the
input length plus the header length. -/
theorem claim_C10_identity_when_unrotated :
    rotation_header = [] ∧
    (∀ exifBytes, rotationHeaderFn 0 exifBytes = []) ∧
    (∀ buf : List Nat, 2 ≤ buf.length → writeTransform rotation_header buf = buf) ∧
    (∀ hdr buf : List Nat, (writeTransform hdr buf).length = buf.length + hdr.length) := by
  refine ⟨rfl, fun _ => rfl, ?_, ?_⟩
  · intro buf _
    simp [writeTransform, rotation_header, rotationHeaderFn, rotationSetting]
  · intro hdr buf
    simp [writeTransform]
    omega

/-- Witness for C10 at a concrete frame. -/
theorem claim_C10_identity_when_unrotated_witness :
    writeTransform rotation_header [1, 2, 3] = [1, 2, 3] ∧
    (2 ≤ ([1, 2, 3] : List Nat).length) :=
  ⟨claim_C10_identity_when_unrotated.2.2.1 [1, 2, 3] (by decide), by decide⟩
